import Mathlib

/-!
Verification of the trust-score service in
`src/calculateTrustScoreForDomain.js`.

JavaScript numbers are modelled by `JSNum`: NaN, the two signed
infinities, and finite values as exact rationals.  The special-value
rules (division by zero, NaN propagation, comparisons with NaN) follow
IEEE-754 as implemented by JavaScript; finite arithmetic is exact.
Dates are modelled by the only two fields the code reads,
`getFullYear()` and `getMonth()`.  The paginated retrieval is modelled
with an explicit fetch oracle `fetch : ℕ → Except ε (List α)`; the
controller returns, next to the result of the original code, the trace
of page indices it fetched, in order.
-/

/-- A JavaScript number: NaN, an infinity (`true` = positive), or a
finite value, kept as an exact rational. -/
inductive JSNum : Type where
  | nan : JSNum
  | inf : Bool → JSNum
  | fin : ℚ → JSNum
deriving DecidableEq

namespace JSNum

/-- JavaScript addition on `JSNum`. -/
def add : JSNum → JSNum → JSNum
  | nan, _ => nan
  | _, nan => nan
  | inf b, inf c => if b = c then inf b else nan
  | inf b, fin _ => inf b
  | fin _, inf c => inf c
  | fin p, fin q => fin (p + q)

/-- JavaScript multiplication on `JSNum`. -/
def mul : JSNum → JSNum → JSNum
  | nan, _ => nan
  | _, nan => nan
  | inf b, inf c => inf (b = c)
  | inf b, fin q => if q = 0 then nan else if q < 0 then inf (!b) else inf b
  | fin p, inf c => if p = 0 then nan else if p < 0 then inf (!c) else inf c
  | fin p, fin q => fin (p * q)

/-- JavaScript division on `JSNum`.  A nonzero finite value divided by
(positive) zero gives a signed infinity; `0 / 0` gives NaN. -/
def div : JSNum → JSNum → JSNum
  | nan, _ => nan
  | _, nan => nan
  | inf _, inf _ => nan
  | inf b, fin q => if q < 0 then inf (!b) else inf b
  | fin _, inf _ => fin 0
  | fin p, fin q =>
      if q = 0 then (if p = 0 then nan else if p < 0 then inf false else inf true)
      else fin (p / q)

instance : Add JSNum := ⟨add⟩
instance : Mul JSNum := ⟨mul⟩
instance : Div JSNum := ⟨div⟩

/-- The JavaScript comparison `x > y` (false whenever an operand is NaN). -/
def gtb : JSNum → JSNum → Bool
  | nan, _ => false
  | _, nan => false
  | inf true, inf true => false
  | inf true, _ => true
  | inf false, _ => false
  | fin _, inf true => false
  | fin _, inf false => true
  | fin p, fin q => decide (q < p)

/-- The JavaScript comparison `x <= y` (false whenever an operand is NaN). -/
def leb : JSNum → JSNum → Bool
  | nan, _ => false
  | _, nan => false
  | inf false, _ => true
  | _, inf true => true
  | inf true, _ => false
  | _, inf false => false
  | fin p, fin q => decide (p ≤ q)

/-- JavaScript `Math.round`: on finite values `⌊x + 1/2⌋` (halves round
toward positive infinity); NaN and infinities pass through. -/
def round : JSNum → JSNum
  | nan => nan
  | inf b => inf b
  | fin q => fin ((⌊q + 1/2⌋ : ℤ) : ℚ)

end JSNum

/-- A JavaScript `Date`, reduced to the two fields the code reads:
`getFullYear()` and `getMonth()` (0-based month). -/
structure JSDate : Type where
  year : ℤ
  month : ℤ
deriving DecidableEq

/-- A review as consumed by the scoring loop: `stars` and `createdAt`. -/
structure Review : Type where
  stars : ℚ
  createdAt : JSDate
deriving DecidableEq

/-- `this.MAX_REVIEW_AMOUNT` -/
def MAX_REVIEW_AMOUNT : ℕ := 300
/-- `this.MAX_REVIEW_AGE` -/
def MAX_REVIEW_AGE : ℤ := 36
/-- `this.MAX_REVIEW_STARS` -/
def MAX_REVIEW_STARS : ℚ := 5

/-- `TrustScore.getMonthsSinceReviewDate`, with "now" passed explicitly:
`months = (today.getFullYear() - reviewDate.getFullYear()) * 12
- (reviewDate.getMonth() + 1) + today.getMonth()`, and `months <= 0`
is collapsed to `0`. -/
def getMonthsSinceReviewDate (today date : JSDate) : ℤ :=
  let months := (today.year - date.year) * 12 - (date.month + 1) + today.month
  if months ≤ 0 then 0 else months

/-- The review age used by the scoring loop (`reviewAge` in the source). -/
def reviewAgeOf (today : JSDate) (r : Review) : ℤ :=
  getMonthsSinceReviewDate today r.createdAt

/-- `ageModifier = (reviewAge >= MAX_REVIEW_AGE ? 0 : 1 - reviewAge / MAX_REVIEW_AGE)`. -/
def ageModifierOf (today : JSDate) (r : Review) : JSNum :=
  if reviewAgeOf today r ≥ MAX_REVIEW_AGE then .fin 0
  else .fin (1 - (reviewAgeOf today r : ℚ) / (MAX_REVIEW_AGE : ℚ))

/-- `ageScore = (reviewStars / (reviewAge * 2)) / MAX_REVIEW_STARS`. -/
def ageScoreOf (today : JSDate) (r : Review) : JSNum :=
  (JSNum.fin r.stars / .fin ((reviewAgeOf today r : ℚ) * 2)) / .fin MAX_REVIEW_STARS

/-- `ratingScore = (reviewStars / MAX_REVIEW_STARS + ageModifier) + ageScore`,
then clamped by `ratingScore > 2 ? 2 : ratingScore`. -/
def ratingScoreOf (today : JSDate) (r : Review) : JSNum :=
  let rs := (JSNum.fin r.stars / .fin MAX_REVIEW_STARS) + ageModifierOf today r
    + ageScoreOf today r
  if rs.gtb (.fin 2) then .fin 2 else rs

/-- The stars actually accumulated: the source reassigns
`reviewStars = reviewStars * (MAX_REVIEW_AGE / reviewAge)` when
`reviewAge > MAX_REVIEW_AGE` (after `ratingScore` was computed). -/
def effectiveStars (today : JSDate) (r : Review) : JSNum :=
  if reviewAgeOf today r > MAX_REVIEW_AGE then
    JSNum.fin r.stars * (.fin (MAX_REVIEW_AGE : ℚ) / .fin (reviewAgeOf today r : ℚ))
  else .fin r.stars

/-- One iteration of the scoring loop:
`reviewStars + (reviewStars * ratingScore) / 2` with the reassigned stars. -/
def reviewScore (today : JSDate) (r : Review) : JSNum :=
  effectiveStars today r + (effectiveStars today r * ratingScoreOf today r) / .fin 2

/-- `TrustScore.calculateScore`: the loop accumulates `reviewScore` into
`totalTrustScore` starting from `0`; the result is
`Math.round((totalTrustScore / totalReviews) * 10) / 10`. -/
def calculateScore (today : JSDate) (reviews : List Review) : JSNum :=
  let totalTrustScore := reviews.foldl (fun acc r => acc + reviewScore today r) (.fin 0)
  ((totalTrustScore / .fin (reviews.length : ℚ)) * .fin 10).round / .fin 10

/-- `TrustScore.runReviewPageRequests`, generic in the item type `α`
(a review) and the error type `ε`.  `fetch` is the oracle standing for
`getBusinessReviews`: for a page index it yields that page or an error.
The first component of the result is the trace of page indices actually
fetched, in order; the second is what the promise chain delivers: the
accumulated list on `resolve(true)`, the fetch error on `reject(error)`. -/
def runReviewPageRequests {α ε : Type} (fetch : ℕ → Except ε (List α))
    (page pages : ℕ) (acc : List α) : List ℕ × Except ε (List α) :=
  match fetch page with
  | .error e => ([page], .error e)
  | .ok data =>
      if h : page < pages then
        let rest := runReviewPageRequests fetch (page + 1) pages (acc ++ data)
        (page :: rest.1, rest.2)
      else ([page], .ok (acc ++ data))
termination_by pages - page
decreasing_by omega

/-- The page count computed by `getMaximumBusinessReviews`:
`totalReviews > MAX_REVIEW_AMOUNT ? MAX_REVIEW_AMOUNT / 100
: Math.ceil(totalReviews / 100)`. -/
def pagesFor (totalReviews : ℕ) : ℕ :=
  if totalReviews > MAX_REVIEW_AMOUNT then MAX_REVIEW_AMOUNT / 100
  else ⌈(totalReviews : ℚ) / 100⌉₊

/-- `TrustScore.getMaximumBusinessReviews`: `this.business.reviews` is
reset to `[]` and the recursion starts at `page = 1` with the page count
above. -/
def getMaximumBusinessReviews {α ε : Type} (fetch : ℕ → Except ε (List α))
    (totalReviews : ℕ) : List ℕ × Except ε (List α) :=
  runReviewPageRequests fetch 1 (pagesFor totalReviews) []

/-- The page delivered by the fetch oracle for index `k` (empty when
that index errors); used to state what a successful run accumulates. -/
def pageOf {α ε : Type} (fetch : ℕ → Except ε (List α)) (k : ℕ) : List α :=
  match fetch k with
  | .ok d => d
  | .error _ => []

/-- The resolver data `getTrustScore` consumes: `this.business.id` and
`responseData.numberOfReviews.total`. -/
structure BusinessInfo : Type where
  id : String
  totalReviews : ℕ
deriving DecidableEq

/-- The response object assembled by `getTrustScore`. -/
structure TrustScoreResponse : Type where
  id : String
  domain : String
  trustScore : JSNum
deriving DecidableEq

/-- `TrustScore.getTrustScore`: `prepareTrustScoreData` resolves the
business unit (modelled by the `resolve` argument), fetches the capped
review pages, and on success the response is assembled with
`calculateScore`; any rejection along the chain is passed through. -/
def getTrustScore {ε : Type} (resolve : Except ε BusinessInfo)
    (fetch : ℕ → Except ε (List Review)) (today : JSDate) (domain : String) :
    Except ε TrustScoreResponse :=
  match resolve with
  | .error e => .error e
  | .ok info =>
      match (getMaximumBusinessReviews fetch info.totalReviews).2 with
      | .error e => .error e
      | .ok reviews => .ok ⟨info.id, domain, calculateScore today reviews⟩

/-! ## Spec-side definitions

The following definitions transcribe the specification text, to be
compared with the code-derived definitions above.  They are used by the
refinement claim C1. -/

namespace SpecSide

/-- `Math.min`-style minimum on `JSNum` (NaN-propagating), used to read
the specification word `min`. -/
def jsMin : JSNum → JSNum → JSNum
  | .nan, _ => .nan
  | _, .nan => .nan
  | .inf false, _ => .inf false
  | x, .inf true => x
  | .inf true, y => y
  | _, .inf false => .inf false
  | .fin p, .fin q => if p ≤ q then .fin p else .fin q

/-- Modelled from the spec: per-review score with
`ageModifier = (a >= 36 ? 0 : 1 - a/36)`,
`ageScore = (s / (a * 2)) / 5`,
`ratingScore = min(2, s/5 + ageModifier + ageScore)`,
`effectiveStars = (a > 36 ? s * (36/a) : s)`, and
`reviewScore = effectiveStars + (effectiveStars * ratingScore) / 2`. -/
def specReviewScore (today : JSDate) (r : Review) : JSNum :=
  let a := getMonthsSinceReviewDate today r.createdAt
  let s := r.stars
  let ageModifier : JSNum := if a ≥ 36 then .fin 0 else .fin (1 - (a : ℚ) / 36)
  let ageScore := (JSNum.fin s / .fin ((a : ℚ) * 2)) / .fin 5
  let ratingScore := jsMin (.fin 2) ((JSNum.fin s / .fin 5) + ageModifier + ageScore)
  let es : JSNum := if a > 36 then .fin s * (.fin 36 / .fin (a : ℚ)) else .fin s
  es + (es * ratingScore) / .fin 2

/-- Modelled from the spec: rounding "to one decimal place
(round-half-up on the tenths digit)" on a finite value; NaN and
infinities pass through. -/
def roundTenths : JSNum → JSNum
  | .nan => .nan
  | .inf b => .inf b
  | .fin q => .fin (((⌊q * 10 + 1/2⌋ : ℤ) : ℚ) / 10)

/-- Modelled from the spec: "the mean of `reviewScore` over all
reviews, rounded to one decimal place". -/
def specScore (today : JSDate) (reviews : List Review) : JSNum :=
  let total := (reviews.map (specReviewScore today)).foldl (· + ·) (.fin 0)
  roundTenths (total / .fin (reviews.length : ℚ))

end SpecSide

/-! ## Helper lemmas -/

namespace JSNum

@[simp] theorem fin_add_fin (p q : ℚ) : fin p + fin q = fin (p + q) := rfl

@[simp] theorem fin_mul_fin (p q : ℚ) : fin p * fin q = fin (p * q) := rfl

@[simp] theorem nan_add (x : JSNum) : nan + x = nan := by cases x <;> rfl

@[simp] theorem add_nan (x : JSNum) : x + nan = nan := by cases x <;> rfl

@[simp] theorem round_fin (q : ℚ) : round (fin q) = fin ((⌊q + 1/2⌋ : ℤ) : ℚ) := rfl

theorem fin_div_fin (p q : ℚ) (hq : q ≠ 0) : fin p / fin q = fin (p / q) := by
  show div (fin p) (fin q) = fin (p / q)
  simp [div, hq]

theorem add_def (x y : JSNum) : x + y = add x y := rfl

theorem mul_def (x y : JSNum) : x * y = mul x y := rfl

theorem div_def (x y : JSNum) : x / y = div x y := rfl

theorem add_commutative (x y : JSNum) : x + y = y + x := by
  cases x <;> cases y <;> simp only [add_def, add] <;> try rfl
  case inf.inf b c =>
    by_cases h : b = c
    · subst h; simp
    · rw [if_neg h, if_neg (fun hc => h hc.symm)]
  case fin.fin p q => rw [add_comm]

theorem add_associative (x y z : JSNum) : x + y + z = x + (y + z) := by
  cases x <;> cases y <;> cases z <;>
    simp only [add_def, add] <;>
    try rfl
  case inf.inf.nan b c =>
    by_cases h1 : b = c <;> simp [h1, add]
  case inf.inf.inf b c d =>
    by_cases h1 : b = c <;> by_cases h2 : c = d <;>
      simp [h1, h2, add] <;> simp_all
  case inf.inf.fin b c q =>
    by_cases h1 : b = c <;> simp [h1, add]
  case fin.inf.inf q b c =>
    by_cases h1 : b = c <;> simp [h1, add]
  case fin.fin.fin p q u => rw [add_assoc]

end JSNum

theorem getMonthsSinceReviewDate_nonneg (today date : JSDate) :
    0 ≤ getMonthsSinceReviewDate today date := by
  simp only [getMonthsSinceReviewDate]
  split <;> omega

theorem reviewAgeOf_nonneg (today : JSDate) (r : Review) : 0 ≤ reviewAgeOf today r :=
  getMonthsSinceReviewDate_nonneg _ _

theorem clamp_eq_jsMin (x : JSNum) :
    (if x.gtb (.fin 2) then JSNum.fin 2 else x) = SpecSide.jsMin (.fin 2) x := by
  cases x
  case nan => rfl
  case inf b => cases b <;> rfl
  case fin p =>
    simp only [JSNum.gtb, SpecSide.jsMin]
    rcases lt_trichotomy p 2 with h | h | h
    · rw [if_neg (by simp; linarith), if_neg (by linarith)]
    · subst h; norm_num
    · rw [if_pos (by simpa using h), if_pos h.le]

theorem specReviewScore_eq (today : JSDate) (r : Review) :
    SpecSide.specReviewScore today r = reviewScore today r := by
  simp only [SpecSide.specReviewScore, reviewScore, ratingScoreOf, effectiveStars,
    ageScoreOf, ageModifierOf, reviewAgeOf, MAX_REVIEW_AGE, MAX_REVIEW_STARS,
    ← clamp_eq_jsMin]
  norm_cast

theorem ceil_div_100 (n : ℕ) : ⌈(n : ℚ) / 100⌉₊ = (n + 99) / 100 := by
  rcases Nat.eq_zero_or_pos n with rfl | hn
  · simp
  · have hm0 : (n + 99) / 100 ≠ 0 := by omega
    rw [Nat.ceil_eq_iff hm0]
    constructor
    · rw [lt_div_iff₀ (by norm_num : (0:ℚ) < 100)]
      have h3 : ((n + 99) / 100 - 1) * 100 < n := by omega
      calc ((((n + 99) / 100 - 1 : ℕ)) : ℚ) * 100
          = ((((n + 99) / 100 - 1) * 100 : ℕ) : ℚ) := by push_cast; ring
        _ < (n : ℚ) := by exact_mod_cast h3
    · rw [div_le_iff₀ (by norm_num : (0:ℚ) < 100)]
      have h4 : n ≤ ((n + 99) / 100) * 100 := by omega
      exact_mod_cast h4

theorem pagesFor_eq (n : ℕ) :
    pagesFor n = if n ≤ 300 then (n + 99) / 100 else 3 := by
  unfold pagesFor MAX_REVIEW_AMOUNT
  rcases le_or_lt n 300 with h | h
  · rw [if_neg (by omega), if_pos h, ceil_div_100]
  · rw [if_pos h, if_neg (by omega)]

theorem runReviewPageRequests_ok {α ε : Type} (fetch : ℕ → Except ε (List α)) :
    ∀ (n page pages : ℕ) (acc rs : List α), pages - page ≤ n →
      (runReviewPageRequests fetch page pages acc).2 = .ok rs →
      (runReviewPageRequests fetch page pages acc).1 =
          List.range' page (max (pages + 1 - page) 1) ∧
        rs = acc ++ (((runReviewPageRequests fetch page pages acc).1).map (pageOf fetch)).flatten := by
  intro n
  induction n with
  | zero =>
    intro page pages acc rs hle hok
    rw [runReviewPageRequests] at hok ⊢
    cases hf : fetch page with
    | error e => rw [hf] at hok; simp at hok
    | ok d =>
      rw [hf] at hok
      dsimp only at hok ⊢
      rw [dif_neg (by omega : ¬ page < pages)] at hok ⊢
      simp only [Except.ok.injEq] at hok
      subst hok
      refine ⟨?_, by simp [pageOf, hf]⟩
      rw [(by omega : max (pages + 1 - page) 1 = 1)]
      rfl
  | succ n ih =>
    intro page pages acc rs hle hok
    rw [runReviewPageRequests] at hok ⊢
    cases hf : fetch page with
    | error e => rw [hf] at hok; simp at hok
    | ok d =>
      rw [hf] at hok
      dsimp only at hok ⊢
      by_cases hp : page < pages
      · rw [dif_pos hp] at hok ⊢
        obtain ⟨ht, hrs⟩ := ih (page + 1) pages (acc ++ d) rs (by omega) hok
        constructor
        · rw [ht, (by omega : max (pages + 1 - (page + 1)) 1 = pages - page),
            (by omega : max (pages + 1 - page) 1 = (pages - page) + 1),
            List.range'_succ]
        · rw [List.map_cons, List.flatten_cons, pageOf, hf, hrs, List.append_assoc]
      · rw [dif_neg hp] at hok ⊢
        simp only [Except.ok.injEq] at hok
        subst hok
        refine ⟨?_, by simp [pageOf, hf]⟩
        rw [(by omega : max (pages + 1 - page) 1 = 1)]
        rfl

theorem runReviewPageRequests_error {α ε : Type} (fetch : ℕ → Except ε (List α)) :
    ∀ (n page pages k : ℕ) (acc : List α) (e : ε), pages - page ≤ n →
      page ≤ k → k ≤ pages → fetch k = .error e →
      (∀ j, page ≤ j → j < k → (fetch j).isOk) →
      runReviewPageRequests fetch page pages acc =
        (List.range' page (k + 1 - page), .error e) := by
  intro n
  induction n with
  | zero =>
    intro page pages k acc e hle hpk hkp hk hok
    have hpk' : page = k := by omega
    subst hpk'
    rw [runReviewPageRequests, hk, (by omega : page + 1 - page = 1)]
    rfl
  | succ n ih =>
    intro page pages k acc e hle hpk hkp hk hok
    rcases eq_or_lt_of_le hpk with rfl | hlt
    · rw [runReviewPageRequests, hk, (by omega : page + 1 - page = 1)]
      rfl
    · have hobt := hok page le_rfl hlt
      cases hf : fetch page with
      | error e2 => rw [hf] at hobt; simp [Except.isOk, Except.toBool] at hobt
      | ok d =>
        rw [runReviewPageRequests, hf]
        dsimp only
        rw [dif_pos (by omega : page < pages)]
        rw [ih (page + 1) pages k (acc ++ d) e (by omega) (by omega) hkp hk
            (fun j h1 h2 => hok j (by omega) h2),
          (by omega : k + 1 - (page + 1) = k - page)]
        rw [(by omega : k + 1 - page = (k - page) + 1), List.range'_succ]

theorem runReviewPageRequests_isOk {α ε : Type} (fetch : ℕ → Except ε (List α)) :
    ∀ (n page pages : ℕ) (acc : List α), pages - page ≤ n →
      (∀ k, (fetch k).isOk) →
      ∃ rs, (runReviewPageRequests fetch page pages acc).2 = .ok rs := by
  intro n
  induction n with
  | zero =>
    intro page pages acc hle hok
    rw [runReviewPageRequests]
    cases hf : fetch page with
    | error e => have := hok page; rw [hf] at this; simp [Except.isOk, Except.toBool] at this
    | ok d =>
      dsimp only
      rw [dif_neg (by omega : ¬ page < pages)]
      exact ⟨acc ++ d, rfl⟩
  | succ n ih =>
    intro page pages acc hle hok
    rw [runReviewPageRequests]
    cases hf : fetch page with
    | error e => have := hok page; rw [hf] at this; simp [Except.isOk, Except.toBool] at this
    | ok d =>
      dsimp only
      by_cases hp : page < pages
      · rw [dif_pos hp]
        exact ih (page + 1) pages (acc ++ d) (by omega) hok
      · rw [dif_neg hp]; exact ⟨acc ++ d, rfl⟩

/-- Scenario check: a review dated September 2020 seen from
October 2026 is 72 months old. -/
theorem scenario_age_72 : reviewAgeOf ⟨2026, 9⟩ ⟨3, ⟨2020, 8⟩⟩ = 72 := by decide

/-- Scenario check: stars 3 at 72 months are discounted to
`3 * (36/72) = 1.5` effective stars. -/
theorem scenario_discount :
    effectiveStars ⟨2026, 9⟩ ⟨3, ⟨2020, 8⟩⟩ = .fin (3/2) := by
  norm_num [effectiveStars, reviewAgeOf, getMonthsSinceReviewDate, MAX_REVIEW_AGE,
    JSNum.div_def, JSNum.mul_def, JSNum.div, JSNum.mul]

/-- Scenario check: the single-review score for stars 3 at 72 months
rounds to 2.0. -/
theorem scenario_single_review_score :
    calculateScore ⟨2026, 9⟩ [⟨3, ⟨2020, 8⟩⟩] = .fin 2 := by
  norm_num [calculateScore, reviewScore, effectiveStars, ratingScoreOf, ageScoreOf,
    ageModifierOf, reviewAgeOf, getMonthsSinceReviewDate, MAX_REVIEW_AGE, MAX_REVIEW_STARS,
    JSNum.div_def, JSNum.mul_def, JSNum.add_def, JSNum.div, JSNum.mul, JSNum.add,
    JSNum.gtb, JSNum.round]

theorem roundTenths_eq (x : JSNum) :
    (x * .fin 10).round / .fin 10 = SpecSide.roundTenths x := by
  cases x
  case nan => rfl
  case inf b =>
    show JSNum.div (JSNum.round (JSNum.mul _ _)) _ = _
    norm_num [JSNum.mul, JSNum.div, JSNum.round, SpecSide.roundTenths]
  case fin q =>
    show JSNum.div (JSNum.round (JSNum.mul _ _)) _ = _
    norm_num [JSNum.mul, JSNum.div, JSNum.round, SpecSide.roundTenths]

theorem ageModifierOf_eq_fin (today : JSDate) (r : Review) :
    ageModifierOf today r = .fin (if reviewAgeOf today r ≥ 36 then 0
      else 1 - (reviewAgeOf today r : ℚ) / 36) := by
  unfold ageModifierOf MAX_REVIEW_AGE
  split <;> norm_num <;> split <;> omega

theorem effectiveStars_eq_fin (today : JSDate) (r : Review) :
    effectiveStars today r =
      .fin (if reviewAgeOf today r > 36 then
        r.stars * (36 / (reviewAgeOf today r : ℚ)) else r.stars) := by
  unfold effectiveStars MAX_REVIEW_AGE
  by_cases h : reviewAgeOf today r > 36
  · rw [if_pos h, if_pos h,
      JSNum.fin_div_fin _ _ (by exact_mod_cast (by omega : reviewAgeOf today r ≠ 0)),
      JSNum.fin_mul_fin]
    norm_num
  · rw [if_neg h, if_neg h]

theorem ratingScoreOf_le_two_of_age_pos (today : JSDate) (r : Review)
    (ha : 0 < reviewAgeOf today r) :
    ∃ w : ℚ, ratingScoreOf today r = .fin w ∧ w ≤ 2 := by
  have haq : ((reviewAgeOf today r : ℚ)) * 2 ≠ 0 := by
    have h1 : (0:ℚ) < (reviewAgeOf today r : ℚ) := by exact_mod_cast ha
    nlinarith
  unfold ratingScoreOf ageScoreOf
  rw [ageModifierOf_eq_fin,
    JSNum.fin_div_fin _ _ haq,
    JSNum.fin_div_fin _ _ (by norm_num [MAX_REVIEW_STARS] : MAX_REVIEW_STARS ≠ 0),
    JSNum.fin_div_fin _ _ (by norm_num [MAX_REVIEW_STARS] : MAX_REVIEW_STARS ≠ 0),
    JSNum.fin_add_fin, JSNum.fin_add_fin]
  set v : ℚ := r.stars / MAX_REVIEW_STARS +
      (if reviewAgeOf today r ≥ 36 then 0 else 1 - (reviewAgeOf today r : ℚ) / 36) +
      r.stars / ((reviewAgeOf today r : ℚ) * 2) / MAX_REVIEW_STARS with hv
  by_cases h2 : (2:ℚ) < v
  · exact ⟨2, by simp [JSNum.gtb, h2], le_refl 2⟩
  · exact ⟨v, by simp [JSNum.gtb, h2], not_lt.1 h2⟩

theorem reviewScore_age_zero (today : JSDate) (r : Review)
    (ha : reviewAgeOf today r = 0) (hs : 0 < r.stars) :
    ageScoreOf today r = .inf true ∧ ratingScoreOf today r = .fin 2 ∧
    reviewScore today r = .fin (2 * r.stars) := by
  have h1 : ageScoreOf today r = .inf true := by
    unfold ageScoreOf
    rw [ha]
    norm_num [JSNum.div_def, JSNum.div, hs.ne', not_lt.mpr hs.le, MAX_REVIEW_STARS]
  have h2 : ratingScoreOf today r = .fin 2 := by
    unfold ratingScoreOf
    rw [h1, ageModifierOf_eq_fin, ha]
    norm_num [JSNum.div_def, JSNum.div, JSNum.add_def, JSNum.add, JSNum.gtb,
      MAX_REVIEW_STARS]
  have h3 : effectiveStars today r = .fin r.stars := by
    rw [effectiveStars_eq_fin, ha]
    norm_num
  refine ⟨h1, h2, ?_⟩
  unfold reviewScore
  rw [h3, h2, JSNum.fin_mul_fin, JSNum.fin_div_fin _ _ (by norm_num : (2:ℚ) ≠ 0),
    JSNum.fin_add_fin]
  ring_nf

theorem reviewScore_age_zero_neg (today : JSDate) (r : Review)
    (ha : reviewAgeOf today r = 0) (hs : r.stars < 0) :
    reviewScore today r = .inf true := by
  have h1 : ageScoreOf today r = .inf false := by
    unfold ageScoreOf
    rw [ha]
    norm_num [JSNum.div_def, JSNum.div, hs.ne, hs, MAX_REVIEW_STARS]
  have h2 : ratingScoreOf today r = .inf false := by
    unfold ratingScoreOf
    rw [h1, ageModifierOf_eq_fin, ha]
    norm_num [JSNum.div_def, JSNum.div, JSNum.add_def, JSNum.add, JSNum.gtb,
      MAX_REVIEW_STARS]
  have h3 : effectiveStars today r = .fin r.stars := by
    rw [effectiveStars_eq_fin, ha]
    norm_num
  unfold reviewScore
  rw [h3, h2]
  show JSNum.add _ (JSNum.div (JSNum.mul _ _) _) = _
  norm_num [JSNum.mul, JSNum.div, JSNum.add, hs.ne, hs]

theorem reviewScore_zero_zero (today : JSDate) (r : Review)
    (ha : reviewAgeOf today r = 0) (hs : r.stars = 0) :
    reviewScore today r = .nan := by
  have h1 : ageScoreOf today r = .nan := by
    unfold ageScoreOf
    rw [ha, hs]
    norm_num [JSNum.div_def, JSNum.div, MAX_REVIEW_STARS]
  have h2 : ratingScoreOf today r = .nan := by
    unfold ratingScoreOf
    rw [h1, ageModifierOf_eq_fin, ha, hs]
    norm_num [JSNum.div_def, JSNum.div, JSNum.add_def, JSNum.add, JSNum.gtb,
      MAX_REVIEW_STARS]
  have h3 : effectiveStars today r = .fin r.stars := by
    rw [effectiveStars_eq_fin, ha]
    norm_num
  unfold reviewScore
  rw [h3, h2, hs]
  show JSNum.add _ (JSNum.div (JSNum.mul _ _) _) = _
  norm_num [JSNum.mul, JSNum.div, JSNum.add]

theorem reviewScore_fin_of_age_pos (today : JSDate) (r : Review)
    (ha : 0 < reviewAgeOf today r) :
    ∃ v : ℚ, reviewScore today r = .fin v := by
  obtain ⟨w, hw, _⟩ := ratingScoreOf_le_two_of_age_pos today r ha
  unfold reviewScore
  rw [effectiveStars_eq_fin, hw, JSNum.fin_mul_fin,
    JSNum.fin_div_fin _ _ (by norm_num : (2:ℚ) ≠ 0), JSNum.fin_add_fin]
  exact ⟨_, rfl⟩

/-! ## Claims -/

/-- C1: for every non-empty review sequence, `calculateScore` returns the
mean over all reviews of `reviewScore` rounded to one decimal place with
round-half-up on the tenths digit, where for each review with stars `s`
and age `a`: `ageModifier = (a >= 36 ? 0 : 1 - a/36)`,
`ageScore = (s / (a * 2)) / 5`,
`ratingScore = min(2, s/5 + ageModifier + ageScore)`,
`effectiveStars = (a > 36 ? s * (36/a) : s)`, and
`reviewScore = effectiveStars + (effectiveStars * ratingScore) / 2`. -/
theorem C1_calculateScore_refines_spec (today : JSDate) (reviews : List Review)
    (hne : reviews ≠ []) :
    calculateScore today reviews = SpecSide.specScore today reviews := by
  unfold calculateScore SpecSide.specScore
  rw [List.foldl_map]
  simp only [specReviewScore_eq]
  rw [roundTenths_eq]

/-- Witness for C1 at a concrete one-review input. -/
theorem C1_witness :
    calculateScore ⟨2026, 9⟩ [⟨4, ⟨2023, 9⟩⟩] =
      SpecSide.specScore ⟨2026, 9⟩ [⟨4, ⟨2023, 9⟩⟩] :=
  C1_calculateScore_refines_spec ⟨2026, 9⟩ [⟨4, ⟨2023, 9⟩⟩] (by simp)

/-- C2: the page count is computed once from totalReviewCount alone:
`ceil(totalReviewCount/100)` when at most 300 and `300/100 = 3`
otherwise; when every page fetch succeeds and the page count is at
least 1, exactly that many sequential page fetches are performed. -/
theorem C2_page_count_and_fetch_count {α ε : Type} (fetch : ℕ → Except ε (List α))
    (total : ℕ) (hok : ∀ k, (fetch k).isOk) :
    pagesFor total = (if total ≤ 300 then (total + 99) / 100 else 3) ∧
    (1 ≤ pagesFor total →
      (getMaximumBusinessReviews fetch total).1.length = pagesFor total) := by
  refine ⟨pagesFor_eq total, fun h1 => ?_⟩
  unfold getMaximumBusinessReviews
  obtain ⟨rs, hrs⟩ := runReviewPageRequests_isOk fetch (pagesFor total) 1
    (pagesFor total) [] (by omega) hok
  obtain ⟨ht, _⟩ := runReviewPageRequests_ok fetch (pagesFor total) 1
    (pagesFor total) [] rs (by omega) hrs
  rw [ht, List.length_range']
  omega

/-- Witness for C2: 250 total reviews give 3 fetches. -/
theorem C2_witness :
    (getMaximumBusinessReviews (fun _ => Except.ok [] : ℕ → Except Unit (List ℕ))
      250).1.length = pagesFor 250 :=
  (C2_page_count_and_fetch_count (fun _ => Except.ok []) 250 (fun _ => rfl)).2
    (by rw [pagesFor_eq]; decide)

/-- C3: a failing fetch at page k aborts the retrieval: pages after k
are not fetched, no partial review list is returned, and the error
propagates unchanged through the controller and `getTrustScore`. -/
theorem C3_failure_aborts_and_propagates {ε : Type}
    (fetch : ℕ → Except ε (List Review)) (info : BusinessInfo) (today : JSDate)
    (domain : String) (k : ℕ) (e : ε)
    (h1 : 1 ≤ k) (h2 : k ≤ pagesFor info.totalReviews)
    (hfail : fetch k = .error e)
    (hbefore : ∀ j, 1 ≤ j → j < k → (fetch j).isOk) :
    (getMaximumBusinessReviews fetch info.totalReviews).1 = List.range' 1 k ∧
    (getMaximumBusinessReviews fetch info.totalReviews).2 = .error e ∧
    getTrustScore (.ok info) fetch today domain = .error e := by
  have hrun := runReviewPageRequests_error fetch (pagesFor info.totalReviews) 1
    (pagesFor info.totalReviews) k [] e (by omega) h1 h2 hfail hbefore
  refine ⟨?_, ?_, ?_⟩
  · unfold getMaximumBusinessReviews
    rw [hrun, (by omega : k + 1 - 1 = k)]
  · unfold getMaximumBusinessReviews
    rw [hrun]
  · unfold getTrustScore
    dsimp only
    unfold getMaximumBusinessReviews
    rw [hrun]

/-- Witness for C3: the second of three pages fails. -/
theorem C3_witness :
    getTrustScore (.ok ⟨"biz", 250⟩)
      (fun k => if k = 2 then .error () else .ok []) ⟨2026, 9⟩ "acme.com" =
      .error () :=
  (C3_failure_aborts_and_propagates (fun k => if k = 2 then .error () else .ok [])
    ⟨"biz", 250⟩ ⟨2026, 9⟩ "acme.com" 2 ()
    (by decide) (by rw [pagesFor_eq]; decide) rfl
    (fun j hj1 hj2 => by
      have hj : j = 1 := by omega
      subst hj
      rfl)).2.2

/-- C4: when the computed page count is zero (exactly when
totalReviewCount = 0), one fetch of page 1 still occurs before the
termination check, and the run then terminates with trace [1]. -/
theorem C4_zero_pages_one_fetch {α ε : Type} (fetch : ℕ → Except ε (List α)) :
    pagesFor 0 = 0 ∧ (∀ t, pagesFor t = 0 ↔ t = 0) ∧
    (getMaximumBusinessReviews fetch 0).1 = [1] := by
  have h0 : pagesFor 0 = 0 := by rw [pagesFor_eq]; decide
  refine ⟨h0, fun t => ?_, ?_⟩
  · rw [pagesFor_eq]; split <;> omega
  · unfold getMaximumBusinessReviews
    rw [h0, runReviewPageRequests]
    cases hf : fetch 1 with
    | error e => rfl
    | ok d =>
      dsimp only
      rw [dif_neg (by omega : ¬ 1 < 0)]

/-- C7: after a successful retrieval the accumulated list is exactly the
fetched pages concatenated in fetch order; its length is the sum of the
page sizes; and if the pages are individually duplicate-free and
pairwise disjoint, it contains no review twice. -/
theorem C7_accumulated_reviews {α ε : Type} (fetch : ℕ → Except ε (List α))
    (total : ℕ) (rs : List α)
    (hok : (getMaximumBusinessReviews fetch total).2 = .ok rs) :
    rs = ((getMaximumBusinessReviews fetch total).1.map (pageOf fetch)).flatten ∧
    rs.length = (((getMaximumBusinessReviews fetch total).1.map (pageOf fetch)).map
      List.length).sum ∧
    ((∀ k, (pageOf fetch k).Nodup) →
      (∀ k j, k ≠ j → ∀ x ∈ pageOf fetch k, x ∉ pageOf fetch j) →
      rs.Nodup) := by
  unfold getMaximumBusinessReviews at hok ⊢
  obtain ⟨ht, hrs⟩ := runReviewPageRequests_ok fetch (pagesFor total) 1
    (pagesFor total) [] rs (by omega) hok
  have hflat : rs =
      ((runReviewPageRequests fetch 1 (pagesFor total) []).1.map (pageOf fetch)).flatten := by
    simpa using hrs
  refine ⟨hflat, ?_, fun hnd hdisj => ?_⟩
  · rw [hflat, List.length_flatten, List.map_map]
  · rw [hflat, List.nodup_flatten]
    constructor
    · intro l hl
      obtain ⟨x, hx, rfl⟩ := List.mem_map.1 hl
      exact hnd x
    · rw [ht, List.pairwise_map]
      exact (List.nodup_range' _ _).imp (fun hab => hdisj _ _ hab)

/-- Witness for C7 at a concrete two-page input. -/
theorem C7_witness :
    ([1, 2] : List ℕ) =
      ((getMaximumBusinessReviews (fun k => Except.ok [k] : ℕ → Except Unit (List ℕ))
          150).1.map (pageOf (fun k => Except.ok [k] : ℕ → Except Unit (List ℕ)))).flatten ∧
    ([1, 2] : List ℕ).length =
      (((getMaximumBusinessReviews (fun k => Except.ok [k] : ℕ → Except Unit (List ℕ))
          150).1.map (pageOf (fun k => Except.ok [k] : ℕ → Except Unit (List ℕ)))).map List.length).sum ∧
    ([1, 2] : List ℕ).Nodup := by
  have h2 : pagesFor 150 = 2 := by rw [pagesFor_eq]; decide
  have hok : (getMaximumBusinessReviews
      (fun k => Except.ok [k] : ℕ → Except Unit (List ℕ)) 150).2 = .ok [1, 2] := by
    unfold getMaximumBusinessReviews
    rw [h2]
    rw [runReviewPageRequests]
    dsimp only
    rw [dif_pos (by omega : 1 < 2)]
    rw [runReviewPageRequests]
    dsimp only
    rw [dif_neg (by omega : ¬ 2 < 2)]
    rfl
  have h := C7_accumulated_reviews
    (fun k => Except.ok [k] : ℕ → Except Unit (List ℕ)) 150 [1, 2] hok
  exact ⟨h.1, h.2.1, h.2.2 (fun k => by simp [pageOf])
    (fun k j hkj x hx => by simp [pageOf] at hx ⊢; omega)⟩

/-- C8: `calculateScore` is invariant under permutations of its input. -/
theorem C8_order_invariant (today : JSDate) (rs1 rs2 : List Review)
    (h : rs1.Perm rs2) : calculateScore today rs1 = calculateScore today rs2 := by
  have hfold : rs1.foldl (fun acc r => acc + reviewScore today r) (JSNum.fin 0)
      = rs2.foldl (fun acc r => acc + reviewScore today r) (JSNum.fin 0) :=
    h.foldl_eq' (fun x _ y _ z => by
      rw [JSNum.add_associative, JSNum.add_associative,
        JSNum.add_commutative (reviewScore today x) (reviewScore today y)]) (JSNum.fin 0)
  unfold calculateScore
  rw [h.length_eq, hfold]

/-- Witness for C8 on a concrete two-element swap. -/
theorem C8_witness :
    calculateScore ⟨2026, 9⟩ [⟨1, ⟨2026, 1⟩⟩, ⟨5, ⟨2024, 3⟩⟩] =
      calculateScore ⟨2026, 9⟩ [⟨5, ⟨2024, 3⟩⟩, ⟨1, ⟨2026, 1⟩⟩] :=
  C8_order_invariant ⟨2026, 9⟩ _ _ (List.Perm.swap _ _ _)

/-- C9: on an empty review sequence `calculateScore` raises no error and
returns no numeric score: the division 0/0 gives NaN, and NaN is what
`getTrustScore` delivers as the trustScore. -/
theorem C9_empty_reviews_nan {ε : Type} (info : BusinessInfo)
    (fetch : ℕ → Except ε (List Review)) (today : JSDate) (domain : String)
    (h1 : info.totalReviews = 0) (h2 : fetch 1 = .ok []) :
    calculateScore today [] = .nan ∧
    getTrustScore (.ok info) fetch today domain =
      .ok ⟨info.id, domain, .nan⟩ := by
  have hcalc : calculateScore today [] = .nan := by
    unfold calculateScore
    simp only [List.foldl_nil, List.length_nil, Nat.cast_zero]
    norm_num [JSNum.div_def, JSNum.div, JSNum.mul_def, JSNum.mul, JSNum.round]
  refine ⟨hcalc, ?_⟩
  unfold getTrustScore
  dsimp only
  unfold getMaximumBusinessReviews
  rw [h1, (by rw [pagesFor_eq]; decide : pagesFor 0 = 0), runReviewPageRequests, h2]
  dsimp only
  rw [dif_neg (by omega : ¬ 1 < 0)]
  dsimp only
  rw [List.nil_append, hcalc]

/-- Witness for C9 at a concrete resolver result with zero reviews. -/
theorem C9_witness :
    getTrustScore (.ok ⟨"biz", 0⟩)
      (fun _ => Except.ok [] : ℕ → Except Unit (List Review)) ⟨2026, 9⟩ "acme.com" =
      .ok ⟨"biz", "acme.com", .nan⟩ :=
  (C9_empty_reviews_nan ⟨"biz", 0⟩ (fun _ => Except.ok []) ⟨2026, 9⟩ "acme.com"
    rfl rfl).2

/-- C5 (counterexample): the claim also asserts that a review dated last
month has age 1; the code gives age 0 for a review dated one calendar
month before now. -/
theorem C5_counterexample :
    getMonthsSinceReviewDate ⟨2026, 9⟩ ⟨2026, 8⟩ = 0 ∧
    getMonthsSinceReviewDate ⟨2026, 9⟩ ⟨2026, 8⟩ ≠ 1 := by decide

/-- C5 (amended): monthsSince equals the calendar-field formula
`(yearsDiff * 12) - (reviewMonth + 1) + currentMonth` clamped to a
minimum of 0; a review dated in the current month has age 0; and a
review dated last month also has age 0 (not 1). -/
theorem C5_monthsSince_amended (today date : JSDate) :
    getMonthsSinceReviewDate today date =
      max 0 ((today.year - date.year) * 12 - (date.month + 1) + today.month) ∧
    (today.year = date.year → today.month = date.month →
      getMonthsSinceReviewDate today date = 0) ∧
    ((today.year = date.year ∧ today.month = date.month + 1) ∨
        (today.year = date.year + 1 ∧ today.month = 0 ∧ date.month = 11) →
      getMonthsSinceReviewDate today date = 0) := by
  refine ⟨?_, fun e1 e2 => ?_, fun h => ?_⟩
  · simp only [getMonthsSinceReviewDate]
    split <;> omega
  · simp only [getMonthsSinceReviewDate]
    split <;> omega
  · rcases h with ⟨e1, e2⟩ | ⟨e1, e2, e3⟩ <;>
      simp only [getMonthsSinceReviewDate] <;>
      split <;> omega

/-- Witness for C5 at concrete dates: current month, previous month in
the same year, and previous month across a year boundary. -/
theorem C5_witness :
    getMonthsSinceReviewDate ⟨2026, 5⟩ ⟨2026, 5⟩ = 0 ∧
    getMonthsSinceReviewDate ⟨2026, 5⟩ ⟨2026, 4⟩ = 0 ∧
    getMonthsSinceReviewDate ⟨2027, 0⟩ ⟨2026, 11⟩ = 0 :=
  ⟨(C5_monthsSince_amended ⟨2026, 5⟩ ⟨2026, 5⟩).2.1 rfl rfl,
   (C5_monthsSince_amended ⟨2026, 5⟩ ⟨2026, 4⟩).2.2 (Or.inl ⟨rfl, by decide⟩),
   (C5_monthsSince_amended ⟨2027, 0⟩ ⟨2026, 11⟩).2.2 (Or.inr ⟨by decide, rfl, rfl⟩)⟩

/-- C6 (counterexample): with stars 5 and age 1 month, the review score
is 10 while 1.5 times effectiveStars is 7.5, so the claimed 1.5 bound
fails. -/
theorem C6_counterexample :
    reviewScore ⟨2026, 9⟩ ⟨5, ⟨2026, 7⟩⟩ = .fin 10 ∧
    effectiveStars ⟨2026, 9⟩ ⟨5, ⟨2026, 7⟩⟩ = .fin 5 ∧
    (reviewScore ⟨2026, 9⟩ ⟨5, ⟨2026, 7⟩⟩).leb
      (.fin (3/2) * effectiveStars ⟨2026, 9⟩ ⟨5, ⟨2026, 7⟩⟩) = false := by
  norm_num [reviewScore, effectiveStars, ratingScoreOf, ageScoreOf, ageModifierOf,
    reviewAgeOf, getMonthsSinceReviewDate, MAX_REVIEW_AGE, MAX_REVIEW_STARS,
    JSNum.div_def, JSNum.mul_def, JSNum.add_def, JSNum.div, JSNum.mul, JSNum.add,
    JSNum.gtb, JSNum.leb]

/-- C6 (amended): the 2.0 clamp on ratingScore bounds each review's
contribution by 2 × effectiveStars (not 1.5 ×): for every review with
nonnegative stars outside the NaN case (stars = 0 together with
age = 0), reviewScore is at most 2 × effectiveStars. -/
theorem C6_bound_amended (today : JSDate) (r : Review) (hstars : 0 ≤ r.stars)
    (hnz : ¬(r.stars = 0 ∧ reviewAgeOf today r = 0)) :
    (reviewScore today r).leb (.fin 2 * effectiveStars today r) = true := by
  have hage := reviewAgeOf_nonneg today r
  rcases eq_or_lt_of_le hage with h0 | hpos
  · have ha : reviewAgeOf today r = 0 := h0.symm
    have hs0 : r.stars ≠ 0 := fun hc => hnz ⟨hc, ha⟩
    have hs : 0 < r.stars := lt_of_le_of_ne hstars (Ne.symm hs0)
    obtain ⟨-, -, hrs⟩ := reviewScore_age_zero today r ha hs
    have hes : effectiveStars today r = .fin r.stars := by
      rw [effectiveStars_eq_fin, ha]
      norm_num
    rw [hrs, hes, JSNum.fin_mul_fin]
    simp [JSNum.leb]
  · obtain ⟨w, hw, hw2⟩ := ratingScoreOf_le_two_of_age_pos today r hpos
    rw [reviewScore, effectiveStars_eq_fin, hw, JSNum.fin_mul_fin,
      JSNum.fin_div_fin _ _ (by norm_num : (2:ℚ) ≠ 0), JSNum.fin_add_fin,
      JSNum.fin_mul_fin]
    set e : ℚ := if reviewAgeOf today r > 36 then
        r.stars * (36 / (reviewAgeOf today r : ℚ)) else r.stars with he
    have hepos : 0 ≤ e := by
      rw [he]
      split
      · refine mul_nonneg hstars (div_nonneg (by norm_num) ?_)
        have : (0:ℚ) < (reviewAgeOf today r : ℚ) := by exact_mod_cast hpos
        exact this.le
      · exact hstars
    have hb : e + e * w / 2 ≤ 2 * e := by nlinarith
    simp [JSNum.leb, hb]

/-- Witness for C6 (amended) at a concrete review. -/
theorem C6_witness :
    (reviewScore ⟨2026, 9⟩ ⟨5, ⟨2026, 7⟩⟩).leb
      (.fin 2 * effectiveStars ⟨2026, 9⟩ ⟨5, ⟨2026, 7⟩⟩) = true :=
  C6_bound_amended ⟨2026, 9⟩ ⟨5, ⟨2026, 7⟩⟩ (by norm_num)
    (by simp)

/-- C10: for a review with age 0 and positive stars, the division by
zero makes ageScore positive infinity, the clamp then sets ratingScore
to exactly 2, and the review contributes the finite value 2 × stars;
a NaN contribution arises exactly when stars = 0 and age = 0. -/
theorem C10_zero_age_clamp (today : JSDate) (r : Review) :
    (reviewAgeOf today r = 0 → 0 < r.stars →
      ageScoreOf today r = .inf true ∧ ratingScoreOf today r = .fin 2 ∧
      reviewScore today r = .fin (2 * r.stars)) ∧
    (reviewScore today r = .nan ↔ r.stars = 0 ∧ reviewAgeOf today r = 0) := by
  refine ⟨fun ha hs => reviewScore_age_zero today r ha hs, ?_, ?_⟩
  · intro hnan
    have hage := reviewAgeOf_nonneg today r
    rcases eq_or_lt_of_le hage with h0 | hpos
    · have ha : reviewAgeOf today r = 0 := h0.symm
      rcases lt_trichotomy r.stars 0 with hs | hs | hs
      · rw [reviewScore_age_zero_neg today r ha hs] at hnan
        exact absurd hnan (by simp)
      · exact ⟨hs, ha⟩
      · obtain ⟨-, -, hrs⟩ := reviewScore_age_zero today r ha hs
        rw [hrs] at hnan
        exact absurd hnan (by simp)
    · obtain ⟨v, hv⟩ := reviewScore_fin_of_age_pos today r hpos
      rw [hv] at hnan
      exact absurd hnan (by simp)
  · rintro ⟨hs, ha⟩
    exact reviewScore_zero_zero today r ha hs

/-- Witness for C10 at a concrete review dated in the current month. -/
theorem C10_witness :
    ageScoreOf ⟨2026, 9⟩ ⟨5, ⟨2026, 9⟩⟩ = .inf true ∧
    ratingScoreOf ⟨2026, 9⟩ ⟨5, ⟨2026, 9⟩⟩ = .fin 2 ∧
    reviewScore ⟨2026, 9⟩ ⟨5, ⟨2026, 9⟩⟩ = .fin 10 := by
  have h := (C10_zero_age_clamp ⟨2026, 9⟩ ⟨5, ⟨2026, 9⟩⟩).1 (by decide) (by norm_num)
  refine ⟨h.1, h.2.1, ?_⟩
  rw [h.2.2]
  norm_num
